import Mathlib

/-!
Verification of the diagram-editing core of a draw.io MCP server:
the diagram document model and its XML serialization
(`mcp_drawio_server.py`), the id-based XML patch engine and cell
extractor (`diagram_operations.py`), and the per-session version
history (`history.py`).

XML documents are modelled as value trees (`XmlNode`); `minidom`
parsing is modelled by an executable parser `parseString` over the
subset of XML the repository produces (elements, attributes, text,
the five standard entities), and `Document.toxml()` by `docToXml`.
DOM node references are modelled as paths from the document node;
mutation is functional tree update at a path.
-/

namespace Drawio

/-- A parsed XML node: an element with tag, attributes (in document
order) and children, or a text node. -/
inductive XmlNode where
  | elem (tag : String) (attrs : List (String × String)) (children : List XmlNode)
  | text (s : String)

/-- `Element.getAttribute`: the attribute's value, or `""` when absent. -/
def getAttr (attrs : List (String × String)) (name : String) : String :=
  match attrs.find? (fun p => p.1 = name) with
  | some p => p.2
  | none => ""

/-- `getAttribute` on a node (text nodes have no attributes). -/
def getAttrOf (n : XmlNode) (name : String) : String :=
  match n with
  | .elem _ attrs _ => getAttr attrs name
  | .text _ => ""

mutual
/-- `getElementsByTagName(tag)` over a subtree, self included:
all elements with the given tag, in document (pre) order. -/
def elemsNamed (tag : String) : XmlNode → List XmlNode
  | .elem t a cs => (if t = tag then [.elem t a cs] else []) ++ elemsNamedList tag cs
  | .text _ => []

/-- `elemsNamed` over a list of siblings, in document order. -/
def elemsNamedList (tag : String) : List XmlNode → List XmlNode
  | [] => []
  | c :: cs => elemsNamed tag c ++ elemsNamedList tag cs
end

mutual
/-- As `elemsNamed`, but each element is paired with its path
(child-index list) from the given base path. Paths model DOM node
references for the duration of an operation. -/
def elemsNamedPaths (tag : String) (p : List Nat) : XmlNode → List (XmlNode × List Nat)
  | .elem t a cs => (if t = tag then [(.elem t a cs, p)] else []) ++ elemsNamedPathsList tag p 0 cs
  | .text _ => []

/-- `elemsNamedPaths` over a list of siblings starting at child index `i`. -/
def elemsNamedPathsList (tag : String) (p : List Nat) (i : Nat) :
    List XmlNode → List (XmlNode × List Nat)
  | [] => []
  | c :: cs => elemsNamedPaths tag (p ++ [i]) c ++ elemsNamedPathsList tag p (i + 1) cs
end

mutual
/-- Apply `f` to the node at path `p` (identity when the path dangles). -/
def modifyAt (f : XmlNode → XmlNode) : XmlNode → List Nat → XmlNode
  | n, [] => f n
  | .elem t a cs, i :: p => .elem t a (modifyAtList f cs i p)
  | .text s, _ :: _ => .text s

/-- Apply `f` at path `p` inside the `i`-th sibling. -/
def modifyAtList (f : XmlNode → XmlNode) : List XmlNode → Nat → List Nat → List XmlNode
  | [], _, _ => []
  | c :: cs, 0, p => modifyAt f c p :: cs
  | c :: cs, i + 1, p => c :: modifyAtList f cs i p
end

/-- The node at path `p`, if the path is valid. -/
def getAt : XmlNode → List Nat → Option XmlNode
  | n, [] => some n
  | .elem _ _ cs, i :: p =>
    match cs.get? i with
    | some c => getAt c p
    | none => none
  | .text _, _ :: _ => none

/-- `parentNode.replaceChild(v, old)` for the node referenced by path `p`. -/
def setAt (n : XmlNode) (p : List Nat) (v : XmlNode) : XmlNode :=
  modifyAt (fun _ => v) n p

/-- Drop the `i`-th child of an element. -/
def dropChild (i : Nat) : XmlNode → XmlNode
  | .elem t a cs => .elem t a (cs.eraseIdx i)
  | .text s => .text s

/-- `parentNode.removeChild` of the node referenced by path `p`. -/
def removeAt (n : XmlNode) (p : List Nat) : XmlNode :=
  match p.getLast? with
  | none => n
  | some i => modifyAt (dropChild i) n p.dropLast

/-- `appendChild(v)` on the element referenced by path `p`. -/
def appendChildAt (n : XmlNode) (p : List Nat) (v : XmlNode) : XmlNode :=
  modifyAt (fun m => match m with
    | .elem t a cs => .elem t a (cs ++ [v])
    | .text s => .text s) n p

/-- Python `str.replace` for a single-character pattern (the only
kind of pattern the repository uses): every occurrence of `c` is
replaced by `rep`. -/
def replaceChars (c : Char) (rep : String) : List Char → List Char
  | [] => []
  | d :: ds => (if d = c then rep.data else [d]) ++ replaceChars c rep ds

/-- `replaceChars` on strings. -/
def replaceChar (c : Char) (rep : String) (s : String) : String :=
  String.mk (replaceChars c rep s.data)

/-- `minidom`'s `_write_data` escaping, applied to character data and
attribute values when serializing. -/
def escData (s : String) : String :=
  replaceChar '>' "&gt;" (replaceChar '"' "&quot;" (replaceChar '<' "&lt;"
    (replaceChar '&' "&amp;" s)))

/-- Attribute list as serialized by `minidom.Element.writexml`. -/
def attrsToXml (attrs : List (String × String)) : String :=
  match attrs with
  | [] => ""
  | (n, v) :: rest => " " ++ n ++ "=\"" ++ escData v ++ "\"" ++ attrsToXml rest

mutual
/-- `minidom` serialization of one node (`writexml` with no added
indentation, as used by `toxml`). -/
def nodeToXml : XmlNode → String
  | .text s => escData s
  | .elem t a cs =>
    if cs.isEmpty then "<" ++ t ++ attrsToXml a ++ "/>"
    else "<" ++ t ++ attrsToXml a ++ ">" ++ nodesToXml cs ++ "</" ++ t ++ ">"

/-- Serialization of a list of siblings. -/
def nodesToXml : List XmlNode → String
  | [] => ""
  | c :: cs => nodeToXml c ++ nodesToXml cs
end

/-- `Document.toxml()`: the XML declaration followed by the document
element. -/
def docToXml (n : XmlNode) : String :=
  "<?xml version=\"1.0\" ?>" ++ nodeToXml n

/-- Characters allowed in element and attribute names. -/
def isNameChar (c : Char) : Bool :=
  c.isAlphanum || c = '_' || c = '-' || c = '.' || c = ':'

/-- XML whitespace. -/
def isXmlSpace (c : Char) : Bool :=
  c = ' ' || c = '\n' || c = '\t' || c = '\r'

/-- Drop leading whitespace. -/
def skipWs : List Char → List Char
  | [] => []
  | c :: cs => if isXmlSpace c then skipWs cs else c :: cs

/-- Decode one of the five standard entity references (input starts
just after the ampersand). -/
def parseEntity : List Char → Option (Char × List Char)
  | 'a' :: 'm' :: 'p' :: ';' :: r => some ('&', r)
  | 'l' :: 't' :: ';' :: r => some ('<', r)
  | 'g' :: 't' :: ';' :: r => some ('>', r)
  | 'q' :: 'u' :: 'o' :: 't' :: ';' :: r => some ('"', r)
  | 'a' :: 'p' :: 'o' :: 's' :: ';' :: r => some ('\'', r)
  | _ => none

/-- Longest prefix of name characters, with the remainder. -/
def takeNameChars : List Char → List Char × List Char
  | [] => ([], [])
  | c :: cs =>
    if isNameChar c then
      let (n, r) := takeNameChars cs
      (c :: n, r)
    else ([], c :: cs)

/-- Parse character data up to a `<` or the end of input, decoding
entities; a bare ampersand is a parse error. -/
def parseText : Nat → List Char → List Char → Option (String × List Char)
  | 0, _, _ => none
  | _ + 1, acc, [] => some (String.mk acc.reverse, [])
  | fuel + 1, acc, c :: r =>
    if c = '<' then some (String.mk acc.reverse, c :: r)
    else if c = '&' then
      match parseEntity r with
      | some (d, r₁) => parseText fuel (d :: acc) r₁
      | none => none
    else parseText fuel (c :: acc) r

/-- Parse an attribute value delimited by the quote character `q`;
a raw `<` inside the value is a parse error. -/
def parseAttrValue (q : Char) : Nat → List Char → List Char → Option (String × List Char)
  | 0, _, _ => none
  | _ + 1, _, [] => none
  | fuel + 1, acc, c :: r =>
    if c = q then some (String.mk acc.reverse, r)
    else if c = '<' then none
    else if c = '&' then
      match parseEntity r with
      | some (d, r₁) => parseAttrValue q fuel (d :: acc) r₁
      | none => none
    else parseAttrValue q fuel (c :: acc) r

/-- Parse the attribute list of a start tag, stopping at `/` or `>`. -/
def parseAttrs : Nat → List Char → Option (List (String × String) × List Char)
  | 0, _ => none
  | fuel + 1, s =>
    let s₁ := skipWs s
    match s₁ with
    | '/' :: _ => some ([], s₁)
    | '>' :: _ => some ([], s₁)
    | _ =>
      let (nm, r) := takeNameChars s₁
      if nm.isEmpty then none
      else
        match skipWs r with
        | '=' :: r₁ =>
          match skipWs r₁ with
          | '"' :: r₂ => do
            let (v, r₃) ← parseAttrValue '"' (r₂.length + 1) [] r₂
            let (rest, r₄) ← parseAttrs fuel r₃
            pure ((String.mk nm, v) :: rest, r₄)
          | '\'' :: r₂ => do
            let (v, r₃) ← parseAttrValue '\'' (r₂.length + 1) [] r₂
            let (rest, r₄) ← parseAttrs fuel r₃
            pure ((String.mk nm, v) :: rest, r₄)
          | _ => none
        | _ => none

mutual
/-- Parse sibling content up to a closing tag or the end of input. -/
def parseNodes : Nat → List Char → Option (List XmlNode × List Char)
  | 0, _ => none
  | _ + 1, [] => some ([], [])
  | _ + 1, '<' :: '/' :: r => some ([], '<' :: '/' :: r)
  | fuel + 1, '<' :: r => do
    let (el, r₁) ← parseElement fuel r
    let (ns, r₂) ← parseNodes fuel r₁
    pure (el :: ns, r₂)
  | fuel + 1, s => do
    let (txt, r₁) ← parseText (s.length + 1) [] s
    let (ns, r₂) ← parseNodes fuel r₁
    pure (XmlNode.text txt :: ns, r₂)

/-- Parse one element (input starts just after the `<`). -/
def parseElement : Nat → List Char → Option (XmlNode × List Char)
  | 0, _ => none
  | fuel + 1, s =>
    let (nm, r) := takeNameChars s
    if nm.isEmpty then none
    else do
      let (attrs, r₁) ← parseAttrs (r.length + 1) r
      match r₁ with
      | '/' :: '>' :: r₂ => pure (.elem (String.mk nm) attrs [], r₂)
      | '>' :: r₂ => do
        let (cs, r₃) ← parseNodes fuel r₂
        match r₃ with
        | '<' :: '/' :: r₄ =>
          let (nm₂, r₅) := takeNameChars r₄
          if nm₂ = nm then
            match skipWs r₅ with
            | '>' :: r₆ => pure (.elem (String.mk nm) attrs cs, r₆)
            | _ => none
          else none
        | _ => none
      | _ => none
end

/-- Skip an XML declaration (input starts just after `<?`). -/
def skipDecl : List Char → Option (List Char)
  | '?' :: '>' :: r => some r
  | _ :: r => skipDecl r
  | [] => none

/-- `minidom.parseString`, modelled over the XML subset the repository
produces and consumes: an optional XML declaration followed by a
single element; elements carry single- or double-quoted attributes
and text content with the five standard entity references. Comments,
CDATA sections, doctypes, processing instructions and numeric
character references are outside the modelled subset (parsing them is
modelled as failure, as is any malformed input). -/
def parseString (s : String) : Option XmlNode :=
  let cs := skipWs s.data
  let cs₁ := match cs with
    | '<' :: '?' :: r => skipDecl r
    | _ => some cs
  match cs₁ with
  | none => none
  | some cs₂ =>
    match skipWs cs₂ with
    | '<' :: r =>
      match parseElement (2 * r.length + 2) r with
      | some (el, rest) => if (skipWs rest).isEmpty then some el else none
      | none => none
    | _ => none

/-! ## `diagram_operations.py`: id-based patch engine and cell extractor -/

/-- `OperationError`: one entry of the returned error list. -/
structure OperationError where
  type : String
  cell_id : String
  message : String
deriving DecidableEq, Repr

/-- `DiagramOperation`: one requested operation (`new_xml = none`
models Python `None`). -/
structure DiagramOperation where
  operation : String
  cell_id : String
  new_xml : Option String := none
deriving DecidableEq, Repr

/-- Dict lookup in the id-to-node map. -/
def mapLookup (m : List (String × List Nat)) (k : String) : Option (List Nat) :=
  match m.find? (fun p => p.1 = k) with
  | some p => some p.2
  | none => none

/-- Dict assignment `m[k] = v` (overwrites in place, appends when new). -/
def mapInsert (m : List (String × List Nat)) (k : String) (v : List Nat) :
    List (String × List Nat) :=
  match m with
  | [] => [(k, v)]
  | (k', v') :: t => if k' = k then (k, v) :: t else (k', v') :: mapInsert t k v

/-- Dict deletion `del m[k]`. -/
def mapErase (m : List (String × List Nat)) (k : String) : List (String × List Nat) :=
  m.filter (fun p => p.1 ≠ k)

/-- One step of building the id map:
`if cell_id: cell_map[cell_id] = cell`. -/
def bcStep (m : List (String × List Nat)) (cp : XmlNode × List Nat) :
    List (String × List Nat) :=
  if getAttrOf cp.1 "id" ≠ "" then mapInsert m (getAttrOf cp.1 "id") cp.2 else m

/-- The id-to-element map built from the cells found under `root`
(a later duplicate id wins, as in a Python dict). -/
def buildCellMap (cells : List (XmlNode × List Nat)) : List (String × List Nat) :=
  cells.foldl bcStep []

/-- The warning printed for each edge referencing a deleted cell. -/
def warnMsg (cellId edgeId : String) : String :=
  "Warning: Deleting cell \"" ++ cellId ++ "\" which is referenced by edge \"" ++ edgeId ++ "\""

/-- The messages printed by the pre-deletion scan: one per cell under
`root` whose `source` or `target` attribute equals the deleted id. -/
def deleteWarnings (cellId : String) (rootPath : List Nat) (rootNode : XmlNode) : List String :=
  (elemsNamedPaths "mxCell" rootPath rootNode).filterMap fun cp =>
    if getAttrOf cp.1 "source" = cellId ∨ getAttrOf cp.1 "target" = cellId then
      some (warnMsg cellId (getAttrOf cp.1 "id"))
    else none

/-- The engine's state between operations: the document tree, the
node reference (path) of the `root` element, the id-to-node map, the
collected error list, and the warnings printed so far (modelling
stdout). -/
structure ApplyState where
  doc : XmlNode
  rootPath : List Nat
  cellMap : List (String × List Nat)
  errors : List OperationError
  printed : List String

/-- One iteration of the operation loop of `apply_diagram_operations`. -/
def applyOp (st : ApplyState) (op : DiagramOperation) : ApplyState :=
  if op.operation = "update" then
    match mapLookup st.cellMap op.cell_id with
    | none =>
      { st with errors := st.errors ++
          [⟨"update", op.cell_id, "Cell with id=\"" ++ op.cell_id ++ "\" not found"⟩] }
    | some path =>
      match op.new_xml with
      | none =>
        { st with errors := st.errors ++
            [⟨"update", op.cell_id, "new_xml is required for update operation"⟩] }
      | some nx =>
        if nx = "" then
          { st with errors := st.errors ++
              [⟨"update", op.cell_id, "new_xml is required for update operation"⟩] }
        else
          match parseString ("<wrapper>" ++ nx ++ "</wrapper>") with
          | none =>
            { st with errors := st.errors ++
                [⟨"update", op.cell_id, "Failed to parse new_xml"⟩] }
          | some w =>
            match (elemsNamed "mxCell" w).head? with
            | none =>
              { st with errors := st.errors ++
                  [⟨"update", op.cell_id, "new_xml must contain an mxCell element"⟩] }
            | some newCell =>
              if getAttrOf newCell "id" ≠ op.cell_id then
                { st with errors := st.errors ++
                    [⟨"update", op.cell_id, "ID mismatch: cell_id is \"" ++ op.cell_id ++
                      "\" but new_xml has id=\"" ++ getAttrOf newCell "id" ++ "\""⟩] }
              else
                { st with doc := setAt st.doc path newCell,
                          cellMap := mapInsert st.cellMap op.cell_id path }
  else if op.operation = "add" then
    match mapLookup st.cellMap op.cell_id with
    | some _ =>
      { st with errors := st.errors ++
          [⟨"add", op.cell_id, "Cell with id=\"" ++ op.cell_id ++ "\" already exists"⟩] }
    | none =>
      match op.new_xml with
      | none =>
        { st with errors := st.errors ++
            [⟨"add", op.cell_id, "new_xml is required for add operation"⟩] }
      | some nx =>
        if nx = "" then
          { st with errors := st.errors ++
              [⟨"add", op.cell_id, "new_xml is required for add operation"⟩] }
        else
          match parseString ("<wrapper>" ++ nx ++ "</wrapper>") with
          | none =>
            { st with errors := st.errors ++
                [⟨"add", op.cell_id, "Failed to parse new_xml"⟩] }
          | some w =>
            match (elemsNamed "mxCell" w).head? with
            | none =>
              { st with errors := st.errors ++
                  [⟨"add", op.cell_id, "new_xml must contain an mxCell element"⟩] }
            | some newCell =>
              if getAttrOf newCell "id" ≠ op.cell_id then
                { st with errors := st.errors ++
                    [⟨"add", op.cell_id, "ID mismatch: cell_id is \"" ++ op.cell_id ++
                      "\" but new_xml has id=\"" ++ getAttrOf newCell "id" ++ "\""⟩] }
              else
                let childCount := match getAt st.doc st.rootPath with
                  | some (.elem _ _ cs) => cs.length
                  | _ => 0
                { st with doc := appendChildAt st.doc st.rootPath newCell,
                          cellMap := mapInsert st.cellMap op.cell_id
                            (st.rootPath ++ [childCount]) }
  else if op.operation = "delete" then
    match mapLookup st.cellMap op.cell_id with
    | none =>
      { st with errors := st.errors ++
          [⟨"delete", op.cell_id, "Cell with id=\"" ++ op.cell_id ++ "\" not found"⟩] }
    | some path =>
      let rootNode := (getAt st.doc st.rootPath).getD (.text "")
      { st with doc := removeAt st.doc path,
                cellMap := mapErase st.cellMap op.cell_id,
                printed := st.printed ++ deleteWarnings op.cell_id st.rootPath rootNode }
  else
    st

/-- The result of `apply_diagram_operations`: the `result` and
`errors` fields of the returned dictionary, plus the warnings printed
to stdout while processing. -/
structure ApplyResult where
  result : String
  errors : List OperationError
  printed : List String
deriving DecidableEq, Repr

/-- `apply_diagram_operations(xml_content, operations)`: parse the
document (failure short-circuits with one parse error), locate the
first `root` element (failure likewise short-circuits), build the id
map from its `mxCell` descendants, process the operations in order,
then re-serialize once. -/
def apply_diagram_operations (xml_content : String) (operations : List DiagramOperation) :
    ApplyResult :=
  match parseString xml_content with
  | none => ⟨xml_content, [⟨"parse", "", "XML parse error"⟩], []⟩
  | some doc =>
    match (elemsNamedPaths "root" [] doc).head? with
    | none => ⟨xml_content, [⟨"parse", "", "Could not find <root> element in XML"⟩], []⟩
    | some rp =>
      let st0 : ApplyState :=
        ⟨doc, rp.2, buildCellMap (elemsNamedPaths "mxCell" rp.2 rp.1), [], []⟩
      let st := operations.foldl applyOp st0
      ⟨docToXml st.doc, st.errors, st.printed⟩

/-- One reported cell of `extract_cells_info` (all fields as
`getAttribute` strings). -/
structure CellInfo where
  id : String
  value : String
  style : String
  vertex : String
  edge : String
deriving DecidableEq, Repr

/-- The loop body of `extract_cells_info`: report a cell unless its
id is empty or one of the default root ids `"0"` and `"1"`. -/
def cellInfoOf (c : XmlNode) : Option CellInfo :=
  let cid := getAttrOf c "id"
  if cid ≠ "" ∧ cid ≠ "0" ∧ cid ≠ "1" then
    some ⟨cid, getAttrOf c "value", getAttrOf c "style",
          getAttrOf c "vertex", getAttrOf c "edge"⟩
  else none

/-- The per-document part of `extract_cells_info`: every `mxCell`
with a nonempty id other than the default root cells `"0"` and `"1"`. -/
def extract_cells_info_doc (doc : XmlNode) : List CellInfo :=
  (elemsNamed "mxCell" doc).filterMap cellInfoOf

/-- `extract_cells_info(xml_content)`: parse failure yields `[]`. -/
def extract_cells_info (xml_content : String) : List CellInfo :=
  match parseString xml_content with
  | none => []
  | some doc => extract_cells_info_doc doc

/-! ## `mcp_drawio_server.py`: the diagram document model

Coordinates are declared `float` in the source; they are modelled as
integers rendered through `floatStr` (Python's `str` of an integral
float), which covers every value the repository and its tests use. -/

/-- Python `str(float)` for an integral value. -/
def floatStr (x : Int) : String := toString x ++ ".0"

/-- `Shape`: a vertex of the diagram. -/
structure Shape where
  id : String
  label : String := ""
  style : String := ""
  x : Int := 0
  y : Int := 0
  width : Int := 120
  height : Int := 60
  shape_type : String := "rectangle"
deriving DecidableEq, Repr

/-- `Connection`: an edge between two shapes. -/
structure Connection where
  id : String
  label : String := ""
  style : String := ""
  source_id : String
  target_id : String
  arrow_type : String := "classic"
deriving DecidableEq, Repr

/-- `Diagram`: shapes and connections keyed by id in insertion order,
with the shared id counter. -/
structure Diagram where
  name : String := "Untitled"
  shapes : List (String × Shape) := []
  connections : List (String × Connection) := []
  next_id : Nat := 1
deriving DecidableEq, Repr

/-- `Diagram.add_shape`: mint `shape_<next_id>`, store the shape,
return its id. -/
def Diagram.add_shape (d : Diagram) (label : String) (x : Int := 0) (y : Int := 0)
    (width : Int := 120) (height : Int := 60) (shape_type : String := "rectangle")
    (style : String := "") : String × Diagram :=
  let shape_id := "shape_" ++ toString d.next_id
  (shape_id,
   { d with next_id := d.next_id + 1,
            shapes := d.shapes ++
              [(shape_id, ⟨shape_id, label, style, x, y, width, height, shape_type⟩)] })

/-- `Diagram.add_connection`: `ValueError` when either endpoint is
not a known shape, else mint `conn_<next_id>` and store the
connection. -/
def Diagram.add_connection (d : Diagram) (source_id target_id : String)
    (label : String := "") (arrow_type : String := "classic") (style : String := "") :
    Except String (String × Diagram) :=
  if (d.shapes.find? (fun p => p.1 = source_id)).isNone ∨
     (d.shapes.find? (fun p => p.1 = target_id)).isNone then
    .error "Source or target shape not found"
  else
    let conn_id := "conn_" ++ toString d.next_id
    .ok (conn_id,
      { d with next_id := d.next_id + 1,
               connections := d.connections ++
                 [(conn_id, ⟨conn_id, label, style, source_id, target_id, arrow_type⟩)] })

/-- `Diagram._escape_xml`: the five XML metacharacters, replaced in
source order. -/
def escape_xml (t : String) : String :=
  replaceChar '\'' "&apos;" (replaceChar '"' "&quot;" (replaceChar '>' "&gt;"
    (replaceChar '<' "&lt;" (replaceChar '&' "&amp;" t))))

/-- `Diagram._get_default_style`: the seven-entry lookup table with
rectangle as the fallback. -/
def get_default_style (shape_type : String) : String :=
  if shape_type = "rectangle" then "rounded=0;whiteSpace=wrap;html=1;"
  else if shape_type = "ellipse" then "ellipse;whiteSpace=wrap;html=1;"
  else if shape_type = "diamond" then "rhombus;whiteSpace=wrap;html=1;"
  else if shape_type = "parallelogram" then
    "shape=parallelogram;perimeter=parallelogramPerimeter;whiteSpace=wrap;html=1;"
  else if shape_type = "hexagon" then
    "shape=hexagon;perimeter=hexagonPerimeter2;whiteSpace=wrap;html=1;"
  else if shape_type = "cylinder" then
    "shape=cylinder3;whiteSpace=wrap;html=1;boundedLbl=1;backgroundOutline=1;size=15;"
  else if shape_type = "cloud" then "ellipse;shape=cloud;whiteSpace=wrap;html=1;"
  else "rounded=0;whiteSpace=wrap;html=1;"

/-- The effective style of a shape (`shape.style or default`). -/
def shapeStyle (s : Shape) : String :=
  if s.style = "" then get_default_style s.shape_type else s.style

/-- The effective style of a connection (`conn.style or generated
default edge style`). -/
def connStyle (c : Connection) : String :=
  if c.style = "" then
    "edgeStyle=orthogonalEdgeStyle;rounded=0;orthogonalLoop=1;jettySize=auto;html=1;endArrow="
      ++ c.arrow_type ++ ";"
  else c.style

/-- The serialized lines of one shape. -/
def shapeLines (s : Shape) : List String :=
  ["        <mxCell id=\"" ++ s.id ++ "\" value=\"" ++ escape_xml s.label ++
     "\" style=\"" ++ shapeStyle s ++ "\" vertex=\"1\" parent=\"1\">",
   "          <mxGeometry x=\"" ++ floatStr s.x ++ "\" y=\"" ++ floatStr s.y ++
     "\" width=\"" ++ floatStr s.width ++ "\" height=\"" ++ floatStr s.height ++
     "\" as=\"geometry\"/>",
   "        </mxCell>"]

/-- The serialized lines of one connection. -/
def connLines (c : Connection) : List String :=
  ["        <mxCell id=\"" ++ c.id ++ "\" value=\"" ++ escape_xml c.label ++
     "\" style=\"" ++ connStyle c ++ "\" edge=\"1\" parent=\"1\" source=\"" ++
     c.source_id ++ "\" target=\"" ++ c.target_id ++ "\">",
   "          <mxGeometry relative=\"1\" as=\"geometry\"/>",
   "        </mxCell>"]

/-- `Diagram.to_drawio_xml`. The modification timestamp
(`datetime.now`) is passed in explicitly. -/
def Diagram.to_drawio_xml (d : Diagram) (timestamp : String) : String :=
  String.intercalate "\n" <|
    ["<mxfile host=\"MCP Draw.io Server\" modified=\"" ++ timestamp ++ "\" version=\"1.0.0\">",
     "  <diagram name=\"" ++ d.name ++ "\" id=\"diagram1\">",
     "    <mxGraphModel dx=\"1422\" dy=\"794\" grid=\"1\" gridSize=\"10\" guides=\"1\" tooltips=\"1\" connect=\"1\" arrows=\"1\" fold=\"1\" page=\"1\" pageScale=\"1\" pageWidth=\"827\" pageHeight=\"1169\" math=\"0\" shadow=\"0\">",
     "      <root>",
     "        <mxCell id=\"0\"/>",
     "        <mxCell id=\"1\" parent=\"0\"/>"]
    ++ (d.shapes.map (fun p => p.2)).flatMap shapeLines
    ++ (d.connections.map (fun p => p.2)).flatMap connLines
    ++ ["      </root>",
        "    </mxGraphModel>",
        "  </diagram>",
        "</mxfile>"]

/-- The parsed (`minidom`) form of one serialized shape. -/
def shapeTree (s : Shape) : XmlNode :=
  .elem "mxCell"
    [("id", s.id), ("value", s.label), ("style", shapeStyle s),
     ("vertex", "1"), ("parent", "1")]
    [.text "\n          ",
     .elem "mxGeometry"
       [("x", floatStr s.x), ("y", floatStr s.y), ("width", floatStr s.width),
        ("height", floatStr s.height), ("as", "geometry")] [],
     .text "\n        "]

/-- The parsed (`minidom`) form of one serialized connection. -/
def connTree (c : Connection) : XmlNode :=
  .elem "mxCell"
    [("id", c.id), ("value", c.label), ("style", connStyle c), ("edge", "1"),
     ("parent", "1"), ("source", c.source_id), ("target", c.target_id)]
    [.text "\n          ",
     .elem "mxGeometry" [("relative", "1"), ("as", "geometry")] [],
     .text "\n        "]

/-- The document tree denoted by `to_drawio_xml`'s template
(whitespace between elements as text nodes; escaped label attribute
values as the raw label). It equals the `minidom` parse of the
serialized text whenever that text parses — which can fail, because
the diagram name and style overrides are embedded unescaped: a quote
or `<` in either makes `to_drawio_xml` output unparseable. -/
def Diagram.to_drawio_xml_tree (d : Diagram) (timestamp : String) : XmlNode :=
  .elem "mxfile"
    [("host", "MCP Draw.io Server"), ("modified", timestamp), ("version", "1.0.0")]
    [.text "\n  ",
     .elem "diagram" [("name", d.name), ("id", "diagram1")]
       [.text "\n    ",
        .elem "mxGraphModel"
          [("dx", "1422"), ("dy", "794"), ("grid", "1"), ("gridSize", "10"),
           ("guides", "1"), ("tooltips", "1"), ("connect", "1"), ("arrows", "1"),
           ("fold", "1"), ("page", "1"), ("pageScale", "1"), ("pageWidth", "827"),
           ("pageHeight", "1169"), ("math", "0"), ("shadow", "0")]
          [.text "\n      ",
           .elem "root" []
             ([.text "\n        ", .elem "mxCell" [("id", "0")] [],
               .text "\n        ", .elem "mxCell" [("id", "1"), ("parent", "0")] []]
              ++ (d.shapes.map (fun p => p.2)).flatMap
                   (fun s => [.text "\n        ", shapeTree s])
              ++ (d.connections.map (fun p => p.2)).flatMap
                   (fun c => [.text "\n        ", connTree c])
              ++ [.text "\n      "]),
           .text "\n    "],
        .text "\n  "],
     .text "\n"]

/-- Diagrams reachable from a fresh `Diagram()` by `add_shape` and
(successful) `add_connection` calls. -/
inductive Built : Diagram → Prop
  | init (name : String) : Built { name := name }
  | addShape {d : Diagram} (label : String) (x y width height : Int)
      (shape_type style : String) (h : Built d) :
      Built (d.add_shape label x y width height shape_type style).2
  | addConnection {d d' : Diagram} {cid : String}
      (source_id target_id label arrow_type style : String) (h : Built d)
      (hok : d.add_connection source_id target_id label arrow_type style = .ok (cid, d')) :
      Built d'

/-! ## `history.py`: per-session version history -/

/-- `DiagramVersion`: one stored snapshot. The creation time
(`datetime.now()`) is modelled as a number passed in by the caller. -/
structure DiagramVersion where
  xml : String
  svg : String := ""
  timestamp : Nat := 0
deriving DecidableEq, Repr

/-- The session-keyed store `_history`. A session with no entry reads
as `[]`, matching every observation the module's accessors offer. -/
abbrev HistMap := String → List DiagramVersion

/-- The initial empty store. -/
def emptyHist : HistMap := fun _ => []

/-- `add_history(session_id, xml, svg)`: a no-op when the most recent
version for the session has the same xml; otherwise append, then keep
only the last 50 versions. -/
def add_history (h : HistMap) (session_id xml : String) (svg : String := "")
    (now : Nat := 0) : HistMap :=
  let versions := h session_id
  if (versions.getLast?).any (fun last => last.xml = xml) then h
  else
    let appended := versions ++ [⟨xml, svg, now⟩]
    let trimmed :=
      if appended.length > 50 then appended.drop (appended.length - 50) else appended
    fun sid => if sid = session_id then trimmed else h sid

/-- `get_history(session_id)`. -/
def get_history (h : HistMap) (session_id : String) : List DiagramVersion :=
  h session_id

/-- `get_history_count(session_id)`. -/
def get_history_count (h : HistMap) (session_id : String) : Nat :=
  (h session_id).length

/-! ## Connection label placement

Modelled from the spec: the optional label-placement parameters of
`add_connection` (§3, §4.1, §6) — horizontal alignment, pixel offset
dx/dy, and label background color — are exercised by
`test_label_positioning.py` and `demo_label_positioning.py` but the
implementing version of `Diagram.add_connection` /
`Diagram.to_drawio_xml` is not part of the sources under
verification; the definitions below follow the spec's description,
with the concrete style-token spellings and offset-geometry attributes
asserted by `test_label_positioning.py`. -/

/-- Modelled from the spec: a `Connection` together with the optional
label-placement parameters. -/
structure ConnectionExt where
  base : Connection
  label_position : Option String := none
  label_offset_x : Option Int := none
  label_offset_y : Option Int := none
  label_background_color : Option String := none
deriving DecidableEq, Repr

/-- No label-placement parameter was supplied. -/
def ConnectionExt.noPlacement (c : ConnectionExt) : Prop :=
  c.label_position = none ∧ c.label_offset_x = none ∧
  c.label_offset_y = none ∧ c.label_background_color = none

/-- Modelled from the spec: the connection style, suffixed with the
placement tokens when the corresponding parameters are present. -/
def connStyleExt (c : ConnectionExt) : String :=
  connStyle c.base
    ++ (match c.label_position with
        | some p => "labelPosition=" ++ p ++ ";"
        | none => "")
    ++ (match c.label_background_color with
        | some b => "labelBackgroundColor=" ++ b ++ ";"
        | none => "")

/-- The second geometry sub-element of kind "offset" carrying dx/dy. -/
def offsetLine (dx dy : Int) : String :=
  "          <mxGeometry x=\"" ++ floatStr dx ++ "\" y=\"" ++ floatStr dy ++
    "\" as=\"offset\"/>"

/-- Modelled from the spec: the serialized lines of one connection
with optional label placement. -/
def connLinesExt (c : ConnectionExt) : List String :=
  ["        <mxCell id=\"" ++ c.base.id ++ "\" value=\"" ++ escape_xml c.base.label ++
     "\" style=\"" ++ connStyleExt c ++ "\" edge=\"1\" parent=\"1\" source=\"" ++
     c.base.source_id ++ "\" target=\"" ++ c.base.target_id ++ "\">",
   "          <mxGeometry relative=\"1\" as=\"geometry\"/>"]
  ++ (if c.label_offset_x.isSome ∨ c.label_offset_y.isSome then
        [offsetLine (c.label_offset_x.getD 0) (c.label_offset_y.getD 0)]
      else [])
  ++ ["        </mxCell>"]

/-- Modelled from the spec: a diagram whose connections may carry
label placement. -/
structure DiagramExt where
  name : String := "Untitled"
  shapes : List (String × Shape) := []
  connections : List (String × ConnectionExt) := []
  next_id : Nat := 1
deriving DecidableEq, Repr

/-- Forget the label-placement parameters. -/
def DiagramExt.erase (d : DiagramExt) : Diagram :=
  ⟨d.name, d.shapes, d.connections.map (fun p => (p.1, p.2.base)), d.next_id⟩

/-- Modelled from the spec: `to_drawio_xml` with label placement. -/
def DiagramExt.to_drawio_xml (d : DiagramExt) (timestamp : String) : String :=
  String.intercalate "\n" <|
    ["<mxfile host=\"MCP Draw.io Server\" modified=\"" ++ timestamp ++ "\" version=\"1.0.0\">",
     "  <diagram name=\"" ++ d.name ++ "\" id=\"diagram1\">",
     "    <mxGraphModel dx=\"1422\" dy=\"794\" grid=\"1\" gridSize=\"10\" guides=\"1\" tooltips=\"1\" connect=\"1\" arrows=\"1\" fold=\"1\" page=\"1\" pageScale=\"1\" pageWidth=\"827\" pageHeight=\"1169\" math=\"0\" shadow=\"0\">",
     "      <root>",
     "        <mxCell id=\"0\"/>",
     "        <mxCell id=\"1\" parent=\"0\"/>"]
    ++ (d.shapes.map (fun p => p.2)).flatMap shapeLines
    ++ (d.connections.map (fun p => p.2)).flatMap connLinesExt
    ++ ["      </root>",
        "    </mxGraphModel>",
        "  </diagram>",
        "</mxfile>"]

/-- An `mxCell` element with no nested `mxCell` elements (the shape
every cell of a well-formed draw.io document has). -/
def FlatCell (c : XmlNode) : Prop :=
  match c with
  | .elem t _ cs => t = "mxCell" ∧ elemsNamedList "mxCell" cs = []
  | .text _ => False

/-- A node contributing no cells: text, or a non-`mxCell` element
without `mxCell` descendants. -/
def NonCell (c : XmlNode) : Prop :=
  match c with
  | .elem t _ cs => t ≠ "mxCell" ∧ elemsNamedList "mxCell" cs = []
  | .text _ => True

/-- Is this node an `mxCell` element? -/
def isCellTag (c : XmlNode) : Bool :=
  match c with
  | .elem t _ _ => t = "mxCell"
  | .text _ => false

/-- The cells among a flat sibling list, with their paths. -/
def flatCellsIdx (p : List Nat) : Nat → List XmlNode → List (XmlNode × List Nat)
  | _, [] => []
  | i, c :: cs => (if isCellTag c then [(c, p ++ [i])] else []) ++ flatCellsIdx p (i + 1) cs

/-- Ids as minted by `add_shape`. -/
def goodShapeId (k : String) : Prop := ∃ n : Nat, k = "shape_" ++ toString n

/-- Ids as minted by `add_connection`. -/
def goodConnId (k : String) : Prop := ∃ n : Nat, k = "conn_" ++ toString n

/-- A concrete diagram exercising escaping, custom styles and a
connection. -/
def sampleDiagram : Diagram :=
  let r1 := (Diagram.mk "Test" [] [] 1).add_shape "A&B\"x" 0 0 120 60 "ellipse" ""
  let r2 := r1.2.add_shape "B" 200 0 100 50 "rectangle" "mystyle;"
  match r2.2.add_connection r1.1 r2.1 "Next<>" "classic" "" with
  | .ok (_, d3) => d3
  | .error _ => r2.2

/-- Fold `add_history` over a sequence of snapshots for one session. -/
def addAll (h : HistMap) (sid : String) (xs : List String) (svg : String) (now : Nat) :
    HistMap :=
  xs.foldl (fun hh x => add_history hh sid x svg now) h

/-- The last `n` elements of a list. -/
def lastN (n : Nat) (l : List α) : List α := l.drop (l.length - n)

/-- The per-session core of `add_history`. -/
def listAdd (svg : String) (now : Nat) (vs : List DiagramVersion) (xml : String) :
    List DiagramVersion :=
  if (vs.getLast?).any (fun last => last.xml = xml) then vs
  else
    let appended := vs ++ [⟨xml, svg, now⟩]
    if appended.length > 50 then appended.drop (appended.length - 50) else appended

/-! ## Sanity check: the tree serializer is the parse of the string
serializer -/

set_option maxRecDepth 100000 in
/-- Parsing the string serializer's output yields exactly the tree
`to_drawio_xml_tree`, validating the tree-level model of the minidom
boundary on a representative document. -/
theorem parse_of_to_drawio_xml :
    parseString (sampleDiagram.to_drawio_xml "TS") =
      some (sampleDiagram.to_drawio_xml_tree "TS") := rfl

/-! ## Version history: lemmas and claims C7, C8, C10 -/

lemma trim_eq_lastN (l : List DiagramVersion) :
    (if l.length > 50 then l.drop (l.length - 50) else l) = lastN 50 l := by
  unfold lastN
  by_cases h : l.length > 50
  · simp [h]
  · simp [h, Nat.sub_eq_zero_of_le (Nat.le_of_not_lt h)]

lemma add_history_eq_of_last (h : HistMap) (sid xml svg : String) (now : Nat)
    (hl : ((h sid).getLast?).any (fun last => last.xml = xml) = true) :
    add_history h sid xml svg now = h := by
  unfold add_history
  simp [hl]

lemma add_history_apply_self (h : HistMap) (sid xml svg : String) (now : Nat) :
    (add_history h sid xml svg now) sid = listAdd svg now (h sid) xml := by
  unfold add_history listAdd
  by_cases hB : ((h sid).getLast?).any (fun last => last.xml = xml) = true
  · simp [hB]
  · simp only [Bool.not_eq_true] at hB
    simp [hB]

lemma add_history_getLast (h : HistMap) (sid xml svg : String) (now : Nat) :
    (((add_history h sid xml svg now) sid).getLast?).any
        (fun last => last.xml = xml) = true := by
  rw [add_history_apply_self]
  unfold listAdd
  by_cases hB : ((h sid).getLast?).any (fun last => last.xml = xml) = true
  · simp [hB]
  · simp only [Bool.not_eq_true] at hB
    simp only [hB, Bool.false_eq_true, if_false]
    rw [trim_eq_lastN]
    unfold lastN
    rw [List.getLast?_drop,
        if_neg (by simp only [List.length_append, List.length_cons, List.length_nil]; omega),
        List.getLast?_concat]
    simp

/-- C8 second conjunct helper: a single append to the empty store. -/
lemma add_history_empty (sid xml svg : String) (now : Nat) :
    (add_history emptyHist sid xml svg now) sid = [⟨xml, svg, now⟩] := by
  rw [add_history_apply_self]
  unfold emptyHist listAdd
  simp

/-- C8: appending the same xmlText twice in a row to a session stores
exactly one entry, not two — the second append is a no-op (whatever
preview or time it carries), and a single append to the empty store
yields count 1. -/
theorem c8_duplicate_append_noop :
    (∀ (h : HistMap) (sid xml svg svg' : String) (now now' : Nat),
        add_history (add_history h sid xml svg now) sid xml svg' now' =
          add_history h sid xml svg now)
    ∧ ∀ (sid xml svg : String) (now : Nat),
        get_history_count (add_history emptyHist sid xml svg now) sid = 1 := by
  constructor
  · intro h sid xml svg svg' now now'
    exact add_history_eq_of_last _ _ _ _ _ (add_history_getLast h sid xml svg now)
  · intro sid xml svg now
    unfold get_history_count
    rw [add_history_empty]
    rfl

/-- C10: when the most recent entry for the session already has the
appended xmlText, `add_history` returns the store unchanged — in
particular a new preview supplied alongside identical xmlText is
discarded. -/
theorem c10_duplicate_keeps_old_preview (h : HistMap) (sid xml : String)
    (last : DiagramVersion) (hlast : (h sid).getLast? = some last)
    (hxml : last.xml = xml) (svg' : String) (now' : Nat) :
    add_history h sid xml svg' now' = h := by
  apply add_history_eq_of_last
  rw [hlast]
  simp [hxml]

/-- Witness for C10 at a concrete store: the stale preview "old" is
kept, the new preview "new" is discarded. -/
theorem c10_witness :
    ((fun _ => [(⟨"x", "old", 0⟩ : DiagramVersion)] : HistMap) "s").getLast? =
        some ⟨"x", "old", 0⟩
    ∧ add_history (fun _ => [(⟨"x", "old", 0⟩ : DiagramVersion)]) "s" "x" "new" 7 =
        (fun _ => [(⟨"x", "old", 0⟩ : DiagramVersion)]) :=
  ⟨rfl, c10_duplicate_keeps_old_preview (fun _ => [(⟨"x", "old", 0⟩ : DiagramVersion)])
    "s" "x" ⟨"x", "old", 0⟩ rfl rfl "new" 7⟩

lemma lastN_append_lastN (l : List DiagramVersion) (a : DiagramVersion) :
    lastN 50 (lastN 50 l ++ [a]) = lastN 50 (l ++ [a]) := by
  by_cases h : l.length ≤ 50
  · rw [show lastN 50 l = l by unfold lastN; simp [Nat.sub_eq_zero_of_le h]]
  · have h' : 50 < l.length := Nat.lt_of_not_le h
    unfold lastN
    have hlen : (l.drop (l.length - 50)).length = 50 := by
      rw [List.length_drop]
      omega
    rw [List.length_append, List.length_append, hlen]
    simp only [List.length_cons, List.length_nil]
    rw [List.drop_append_of_le_length (by omega),
        List.drop_append_of_le_length (by omega),
        List.drop_drop]
    congr 2
    omega

lemma listAdd_lastN (svg : String) (now : Nat) (ys : List String) (x : String)
    (hne : ∀ a ∈ ys.getLast?, a ≠ x) :
    listAdd svg now (lastN 50 (ys.map (fun s => ⟨s, svg, now⟩))) x =
      lastN 50 ((ys ++ [x]).map (fun s => ⟨s, svg, now⟩)) := by
  unfold listAdd
  have hlast : (lastN 50 (ys.map (fun s => (⟨s, svg, now⟩ : DiagramVersion)))).getLast? =
      (ys.map (fun s => (⟨s, svg, now⟩ : DiagramVersion))).getLast? := by
    unfold lastN
    rw [List.getLast?_drop]
    by_cases hy : ys = []
    · subst hy; simp
    · rw [if_neg]
      have : 0 < (ys.map (fun s => (⟨s, svg, now⟩ : DiagramVersion))).length := by
        simpa [List.length_map] using List.length_pos.mpr hy
      omega
  rw [hlast]
  have hcond : ((ys.map (fun s => (⟨s, svg, now⟩ : DiagramVersion))).getLast?).any
      (fun last => last.xml = x) = false := by
    rw [List.getLast?_map]
    cases hy : ys.getLast? with
    | none => simp
    | some a =>
      have hx : a ≠ x := hne a (by simp [hy])
      simpa using hx
  rw [hcond]
  simp only [Bool.false_eq_true, if_false]
  rw [trim_eq_lastN]
  rw [List.map_append]
  exact lastN_append_lastN _ _

lemma addAll_apply (sid svg : String) (now : Nat) :
    ∀ (xs : List String) (h : HistMap),
      (addAll h sid xs svg now) sid = xs.foldl (listAdd svg now) (h sid) := by
  intro xs
  induction xs with
  | nil => intro h; rfl
  | cons x xs ih =>
    intro h
    have h1 : addAll h sid (x :: xs) svg now =
        addAll (add_history h sid x svg now) sid xs svg now := rfl
    rw [h1, ih, add_history_apply_self, List.foldl_cons]

lemma listAddAll_lastN (svg : String) (now : Nat) :
    ∀ (xs ys : List String), List.Chain' (· ≠ ·) (ys ++ xs) →
      xs.foldl (listAdd svg now) (lastN 50 (ys.map (fun s => ⟨s, svg, now⟩))) =
        lastN 50 ((ys ++ xs).map (fun s => ⟨s, svg, now⟩)) := by
  intro xs
  induction xs with
  | nil => intro ys _; simp
  | cons x xs ih =>
    intro ys hchain
    have hne : ∀ a ∈ ys.getLast?, a ≠ x := by
      intro a ha
      exact (List.chain'_append.mp hchain).2.2 a ha x (by simp)
    rw [List.foldl_cons, listAdd_lastN svg now ys x hne]
    have := ih (ys ++ [x]) (by simpa [List.append_assoc] using hchain)
    simpa [List.append_assoc] using this

/-- C7: the history for a session never exceeds 50 entries — the
bound is preserved by every append — and appending 51 pairwise
distinct snapshots to an empty store leaves exactly the 50 most
recent ones, discarding the oldest. -/
theorem c7_history_capped_at_50 :
    (∀ (h : HistMap) (sid xml svg : String) (now : Nat),
        get_history_count h sid ≤ 50 →
        get_history_count (add_history h sid xml svg now) sid ≤ 50)
    ∧ ∀ (xs : List String) (sid svg : String) (now : Nat),
        xs.length = 51 → xs.Pairwise (· ≠ ·) →
        get_history (addAll emptyHist sid xs svg now) sid =
          (xs.drop 1).map (fun x => ⟨x, svg, now⟩) := by
  constructor
  · intro h sid xml svg now hle
    unfold get_history_count at *
    rw [add_history_apply_self]
    unfold listAdd
    by_cases hB : ((h sid).getLast?).any (fun last => last.xml = xml) = true
    · simpa [hB] using hle
    · simp only [Bool.not_eq_true] at hB
      simp only [hB, Bool.false_eq_true, if_false]
      rw [trim_eq_lastN]
      unfold lastN
      rw [List.length_drop]
      omega
  · intro xs sid svg now hlen hpw
    unfold get_history
    rw [addAll_apply]
    have h0 : emptyHist sid =
        lastN 50 (([] : List String).map (fun s => (⟨s, svg, now⟩ : DiagramVersion))) := rfl
    rw [h0, listAddAll_lastN svg now xs [] (by simpa using hpw.chain')]
    simp only [List.nil_append]
    unfold lastN
    rw [List.length_map, hlen, ← List.map_drop]

/-- Witness for C7: a concrete bounded append, and the 51 snapshots
`"0" ... "50"`. -/
theorem c7_witness :
    (get_history_count emptyHist "s" ≤ 50 ∧
     get_history_count (add_history emptyHist "s" "x" "" 0) "s" ≤ 50)
    ∧ (((List.range 51).map (fun n => toString n)).length = 51 ∧
       ((List.range 51).map (fun n => toString n)).Pairwise (· ≠ ·) ∧
       get_history (addAll emptyHist "s" ((List.range 51).map (fun n => toString n)) "" 0) "s" =
         ((((List.range 51).map (fun n => toString n)).drop 1).map
           (fun x => ⟨x, "", 0⟩))) :=
  ⟨⟨by decide, c7_history_capped_at_50.1 emptyHist "s" "x" "" 0 (by decide)⟩,
   by decide, by decide,
   c7_history_capped_at_50.2 ((List.range 51).map (fun n => toString n)) "s" "" 0
     (by decide) (by decide)⟩

/-! ## Serialization round trip: claim C1 -/

lemma elemsNamedList_append (tag : String) (a b : List XmlNode) :
    elemsNamedList tag (a ++ b) = elemsNamedList tag a ++ elemsNamedList tag b := by
  induction a with
  | nil => rfl
  | cons c cs ih => simp [elemsNamedList, ih]

lemma elemsNamed_shapeTree (s : Shape) :
    elemsNamed "mxCell" (shapeTree s) = [shapeTree s] := rfl

lemma elemsNamed_connTree (c : Connection) :
    elemsNamed "mxCell" (connTree c) = [connTree c] := rfl

lemma elemsNamedList_blocks {α : Type} (f : α → XmlNode)
    (hf : ∀ a, elemsNamed "mxCell" (f a) = [f a]) :
    ∀ l : List α,
      elemsNamedList "mxCell" (l.flatMap (fun a => [.text "\n        ", f a])) =
        l.map f := by
  intro l
  induction l with
  | nil => rfl
  | cons a as ih =>
    simp only [List.flatMap_cons, List.cons_append, List.nil_append]
    show elemsNamed "mxCell" (.text "\n        ") ++
        elemsNamedList "mxCell" (f a :: as.flatMap (fun a => [.text "\n        ", f a])) = _
    show [] ++ (elemsNamed "mxCell" (f a) ++
        elemsNamedList "mxCell" (as.flatMap (fun a => [.text "\n        ", f a]))) = _
    rw [hf, ih, List.nil_append, List.map_cons, List.singleton_append]

lemma elemsNamed_to_drawio_xml_tree (d : Diagram) (ts : String) :
    elemsNamed "mxCell" (d.to_drawio_xml_tree ts) =
      XmlNode.elem "mxCell" [("id", "0")] [] ::
      XmlNode.elem "mxCell" [("id", "1"), ("parent", "0")] [] ::
      ((d.shapes.map (fun p => p.2)).map shapeTree ++
       (d.connections.map (fun p => p.2)).map connTree) := by
  unfold Diagram.to_drawio_xml_tree
  simp only [elemsNamed, elemsNamedList, elemsNamedList_append,
    elemsNamedList_blocks shapeTree elemsNamed_shapeTree,
    elemsNamedList_blocks connTree elemsNamed_connTree]
  norm_num
  rw [elemsNamedList_append,
    elemsNamedList_blocks shapeTree elemsNamed_shapeTree,
    elemsNamedList_append,
    elemsNamedList_blocks connTree elemsNamed_connTree]
  simp [elemsNamedList, elemsNamed]

lemma cellInfoOf_shapeTree (s : Shape) (h : s.id ≠ "" ∧ s.id ≠ "0" ∧ s.id ≠ "1") :
    cellInfoOf (shapeTree s) = some ⟨s.id, s.label, shapeStyle s, "1", ""⟩ := by
  show (if s.id ≠ "" ∧ s.id ≠ "0" ∧ s.id ≠ "1" then
      some (⟨s.id, s.label, shapeStyle s, "1", ""⟩ : CellInfo) else none) = _
  rw [if_pos h]

lemma cellInfoOf_connTree (c : Connection) (h : c.id ≠ "" ∧ c.id ≠ "0" ∧ c.id ≠ "1") :
    cellInfoOf (connTree c) = some ⟨c.id, c.label, connStyle c, "", "1"⟩ := by
  show (if c.id ≠ "" ∧ c.id ≠ "0" ∧ c.id ≠ "1" then
      some (⟨c.id, c.label, connStyle c, "", "1"⟩ : CellInfo) else none) = _
  rw [if_pos h]

lemma filterMap_cellInfoOf_map {α : Type} (f : α → XmlNode) (g : α → CellInfo) :
    ∀ l : List α, (∀ a ∈ l, cellInfoOf (f a) = some (g a)) →
      (l.map f).filterMap cellInfoOf = l.map g := by
  intro l
  induction l with
  | nil => intro _; rfl
  | cons a as ih =>
    intro h
    rw [List.map_cons, List.filterMap_cons_some (h a (by simp)), List.map_cons,
        ih (fun b hb => h b (by simp [hb]))]

lemma built_ids {d : Diagram} (h : Built d) :
    (∀ p ∈ d.shapes, p.2.id = p.1 ∧ goodShapeId p.1) ∧
    (∀ p ∈ d.connections, p.2.id = p.1 ∧ goodConnId p.1) := by
  induction h with
  | init name => exact ⟨by simp, by simp⟩
  | @addShape d label x y width height shape_type style hb ih =>
    unfold Diagram.add_shape
    refine ⟨?_, ih.2⟩
    intro p hp
    simp only [List.mem_append, List.mem_singleton] at hp
    rcases hp with hp | hp
    · exact ih.1 p hp
    · subst hp
      exact ⟨rfl, ⟨d.next_id, rfl⟩⟩
  | @addConnection d d' cid source_id target_id label arrow_type style hb hok ih =>
    unfold Diagram.add_connection at hok
    split at hok
    · cases hok
    · simp only [Except.ok.injEq, Prod.mk.injEq] at hok
      obtain ⟨hcid, hd'⟩ := hok
      subst hd'
      refine ⟨ih.1, ?_⟩
      intro p hp
      simp only [List.mem_append, List.mem_singleton] at hp
      rcases hp with hp | hp
      · exact ih.2 p hp
      · subst hp
        exact ⟨rfl, ⟨d.next_id, rfl⟩⟩

lemma append_ne_short {pre t k : String} (hpre : 2 ≤ pre.length) (hk : k.length ≤ 1) :
    pre ++ t ≠ k := by
  intro hc
  have hl := congrArg String.length hc
  rw [String.length_append] at hl
  omega

lemma goodShapeId_ne {k : String} (h : goodShapeId k) : k ≠ "" ∧ k ≠ "0" ∧ k ≠ "1" := by
  obtain ⟨n, rfl⟩ := h
  exact ⟨append_ne_short (by decide) (by decide),
         append_ne_short (by decide) (by decide),
         append_ne_short (by decide) (by decide)⟩

lemma goodConnId_ne {k : String} (h : goodConnId k) : k ≠ "" ∧ k ≠ "0" ∧ k ≠ "1" := by
  obtain ⟨n, rfl⟩ := h
  exact ⟨append_ne_short (by decide) (by decide),
         append_ne_short (by decide) (by decide),
         append_ne_short (by decide) (by decide)⟩

/-- Tree-level core of the round trip: on the tree denoted by the
serializer's template, the extractor reports exactly the shape ids
followed by the connection ids. -/
lemma extract_tree_ids (d : Diagram) (ts : String) (h : Built d) :
    (extract_cells_info_doc (d.to_drawio_xml_tree ts)).map (fun c => c.id) =
        d.shapes.map (fun p => p.1) ++ d.connections.map (fun p => p.1)
    ∧ (extract_cells_info_doc (d.to_drawio_xml_tree ts)).length =
        d.shapes.length + d.connections.length := by
  have hb := built_ids h
  have hextract : extract_cells_info_doc (d.to_drawio_xml_tree ts) =
      (d.shapes.map (fun p => p.2)).map
          (fun s => ⟨s.id, s.label, shapeStyle s, "1", ""⟩) ++
        (d.connections.map (fun p => p.2)).map
          (fun c => ⟨c.id, c.label, connStyle c, "", "1"⟩) := by
    have h0 : cellInfoOf (XmlNode.elem "mxCell" [("id", "0")] []) = none := rfl
    have h1 : cellInfoOf (XmlNode.elem "mxCell" [("id", "1"), ("parent", "0")] []) =
        none := rfl
    unfold extract_cells_info_doc
    rw [elemsNamed_to_drawio_xml_tree,
        List.filterMap_cons_none h0,
        List.filterMap_cons_none h1,
        List.filterMap_append,
        filterMap_cellInfoOf_map shapeTree
          (fun s => ⟨s.id, s.label, shapeStyle s, "1", ""⟩) _ (by
          intro s hs
          obtain ⟨p, hp, rfl⟩ := List.mem_map.mp hs
          exact cellInfoOf_shapeTree p.2
            ((hb.1 p hp).1 ▸ goodShapeId_ne (hb.1 p hp).2)),
        filterMap_cellInfoOf_map connTree
          (fun c => ⟨c.id, c.label, connStyle c, "", "1"⟩) _ (by
          intro c hc
          obtain ⟨p, hp, rfl⟩ := List.mem_map.mp hc
          exact cellInfoOf_connTree p.2
            ((hb.2 p hp).1 ▸ goodConnId_ne (hb.2 p hp).2))]
  rw [hextract]
  constructor
  · rw [List.map_append, List.map_map, List.map_map, List.map_map, List.map_map]
    congr 1
    · exact List.map_congr_left (fun p hp => (hb.1 p hp).1)
    · exact List.map_congr_left (fun p hp => (hb.2 p hp).1)
  · simp

/-- C1 (amended): for a built document whose serialized text parses
back (labels are escaped and unrestricted, but the diagram name and
style overrides are embedded unescaped, so they must stay free of XML
metacharacters), listing the cells of the serialized text reports
exactly the shape ids followed by the connection ids — same count and
same ids, the background cells "0" and "1" excluded; when the
serialized text fails to parse, the listing is empty instead. -/
theorem c1_roundtrip_when_serialization_parses :
    (∀ (d : Diagram) (ts : String), Built d →
        parseString (d.to_drawio_xml ts) = some (d.to_drawio_xml_tree ts) →
        (extract_cells_info (d.to_drawio_xml ts)).map (fun c => c.id) =
            d.shapes.map (fun p => p.1) ++ d.connections.map (fun p => p.1)
        ∧ (extract_cells_info (d.to_drawio_xml ts)).length =
            d.shapes.length + d.connections.length)
    ∧ ∀ s : String, parseString s = none → extract_cells_info s = [] := by
  constructor
  · intro d ts hb hp
    unfold extract_cells_info
    rw [hp]
    exact extract_tree_ids d ts hb
  · intro s hs
    unfold extract_cells_info
    rw [hs]

set_option maxRecDepth 400000 in
/-- C1 counterexample: a single `add_shape` with the style override
`a"b` (embedded unescaped by the serializer) makes the serialized
text unparseable, so listing the cells of the serialization reports
zero cells while the document holds one shape — the claimed count
equality fails in the program. -/
theorem c1_counterexample :
    Built ((Diagram.mk "D" [] [] 1).add_shape "A" 0 0 120 60 "rectangle" "a\"b").2
    ∧ parseString
        (((Diagram.mk "D" [] [] 1).add_shape "A" 0 0 120 60 "rectangle"
          "a\"b").2.to_drawio_xml "TS") = none
    ∧ extract_cells_info
        (((Diagram.mk "D" [] [] 1).add_shape "A" 0 0 120 60 "rectangle"
          "a\"b").2.to_drawio_xml "TS") = []
    ∧ (extract_cells_info
        (((Diagram.mk "D" [] [] 1).add_shape "A" 0 0 120 60 "rectangle"
          "a\"b").2.to_drawio_xml "TS")).length ≠
      ((Diagram.mk "D" [] [] 1).add_shape "A" 0 0 120 60 "rectangle"
          "a\"b").2.shapes.length +
        ((Diagram.mk "D" [] [] 1).add_shape "A" 0 0 120 60 "rectangle"
          "a\"b").2.connections.length :=
  ⟨.addShape _ _ _ _ _ _ _ (.init "D"), rfl, rfl, by decide⟩

set_option maxRecDepth 400000 in
/-- Witness for C1: `sampleDiagram`'s serialization parses back, and
listing its cells yields the minted ids. -/
theorem c1_witness :
    Built sampleDiagram
    ∧ parseString (sampleDiagram.to_drawio_xml "TS") =
        some (sampleDiagram.to_drawio_xml_tree "TS")
    ∧ ((extract_cells_info (sampleDiagram.to_drawio_xml "TS")).map (fun c => c.id) =
          sampleDiagram.shapes.map (fun p => p.1) ++
            sampleDiagram.connections.map (fun p => p.1)
        ∧ (extract_cells_info (sampleDiagram.to_drawio_xml "TS")).length =
          sampleDiagram.shapes.length + sampleDiagram.connections.length)
    ∧ parseString "<bad" = none
    ∧ extract_cells_info "<bad" = [] := by
  have hb : Built sampleDiagram :=
    .addConnection "shape_1" "shape_2" "Next<>" "classic" ""
      (.addShape "B" 200 0 100 50 "rectangle" "mystyle;"
        (.addShape "A&B\"x" 0 0 120 60 "ellipse" "" (.init "Test"))) rfl
  exact ⟨hb, parse_of_to_drawio_xml,
    c1_roundtrip_when_serialization_parses.1 sampleDiagram "TS" hb
      parse_of_to_drawio_xml,
    rfl, c1_roundtrip_when_serialization_parses.2 "<bad" rfl⟩

/-! ## Label placement: claim C5 -/

/-- C5 (spec-modelled): a connection carrying the label-placement
parameters serializes with the placement tokens suffixed to its style
string and a second geometry sub-element of kind "offset" carrying
dx/dy; a connection without them serializes to exactly the lines of
the pre-feature serializer, and a whole document without placement
parameters serializes byte-for-byte as before the feature. -/
theorem c5_label_placement_serialization (ts : String) :
    (∀ (c : ConnectionExt) (p bg : String) (dx dy : Int),
        c.label_position = some p → c.label_background_color = some bg →
        c.label_offset_x = some dx → c.label_offset_y = some dy →
        connStyleExt c =
            connStyle c.base ++ ("labelPosition=" ++ p ++ ";") ++
              ("labelBackgroundColor=" ++ bg ++ ";")
          ∧ offsetLine dx dy ∈ connLinesExt c)
    ∧ (∀ c : ConnectionExt, c.noPlacement → connLinesExt c = connLines c.base)
    ∧ ∀ d : DiagramExt, (∀ pc ∈ d.connections, pc.2.noPlacement) →
        d.to_drawio_xml ts = (DiagramExt.erase d).to_drawio_xml ts := by
  have hlines : ∀ c : ConnectionExt, c.noPlacement → connLinesExt c = connLines c.base := by
    intro c hc
    obtain ⟨h1, h2, h3, h4⟩ := hc
    simp [connLinesExt, connLines, connStyleExt, h1, h2, h3, h4]
  refine ⟨?_, hlines, ?_⟩
  · intro c p bg dx dy hp hbg hdx hdy
    refine ⟨by simp [connStyleExt, hp, hbg], ?_⟩
    simp [connLinesExt, hdx, hdy]
  · intro d hd
    unfold DiagramExt.to_drawio_xml Diagram.to_drawio_xml DiagramExt.erase
    have hflat : ∀ (l : List (String × ConnectionExt)), (∀ pc ∈ l, pc.2.noPlacement) →
        (l.map (fun p => p.2)).flatMap connLinesExt =
          ((l.map (fun p => (p.1, p.2.base))).map (fun p => p.2)).flatMap connLines := by
      intro l
      induction l with
      | nil => intro _; rfl
      | cons pc rest ih =>
        intro hl
        simp only [List.map_cons, List.flatMap_cons]
        rw [hlines pc.2 (hl pc (by simp)), ih (fun q hq => hl q (by simp [hq]))]
    rw [hflat d.connections hd]

/-- Witness for C5 at a concrete connection and document. -/
theorem c5_witness :
    ((⟨⟨"conn_3", "L", "", "shape_1", "shape_2", "classic"⟩,
        some "center", some 10, some (-15), some "#e1f5fe"⟩ :
        ConnectionExt).label_position = some "center"
     ∧ connStyleExt ⟨⟨"conn_3", "L", "", "shape_1", "shape_2", "classic"⟩,
          some "center", some 10, some (-15), some "#e1f5fe"⟩ =
        connStyle ⟨"conn_3", "L", "", "shape_1", "shape_2", "classic"⟩ ++
          ("labelPosition=" ++ "center" ++ ";") ++
          ("labelBackgroundColor=" ++ "#e1f5fe" ++ ";")
     ∧ offsetLine 10 (-15) ∈ connLinesExt ⟨⟨"conn_3", "L", "", "shape_1", "shape_2", "classic"⟩,
          some "center", some 10, some (-15), some "#e1f5fe"⟩)
    ∧ ((⟨⟨"conn_3", "L", "", "shape_1", "shape_2", "classic"⟩,
          none, none, none, none⟩ : ConnectionExt).noPlacement
       ∧ connLinesExt ⟨⟨"conn_3", "L", "", "shape_1", "shape_2", "classic"⟩,
            none, none, none, none⟩ =
          connLines ⟨"conn_3", "L", "", "shape_1", "shape_2", "classic"⟩)
    ∧ DiagramExt.to_drawio_xml
        ⟨"D", [("shape_1", ⟨"shape_1", "A", "", 0, 0, 120, 60, "rectangle"⟩)],
         [("conn_3", ⟨⟨"conn_3", "L", "", "shape_1", "shape_2", "classic"⟩,
            none, none, none, none⟩)], 4⟩ "TS" =
      Diagram.to_drawio_xml
        (DiagramExt.erase
          ⟨"D", [("shape_1", ⟨"shape_1", "A", "", 0, 0, 120, 60, "rectangle"⟩)],
           [("conn_3", ⟨⟨"conn_3", "L", "", "shape_1", "shape_2", "classic"⟩,
              none, none, none, none⟩)], 4⟩) "TS" := by
  refine ⟨⟨rfl, ?_, ?_⟩, ⟨⟨rfl, rfl, rfl, rfl⟩, ?_⟩, ?_⟩
  · exact ((c5_label_placement_serialization "TS").1 _ "center" "#e1f5fe" 10 (-15)
      rfl rfl rfl rfl).1
  · exact ((c5_label_placement_serialization "TS").1 _ "center" "#e1f5fe" 10 (-15)
      rfl rfl rfl rfl).2
  · exact (c5_label_placement_serialization "TS").2.1 _ ⟨rfl, rfl, rfl, rfl⟩
  · exact (c5_label_placement_serialization "TS").2.2 _ (by
      intro pc hpc
      simp only [List.mem_singleton] at hpc
      subst hpc
      exact ⟨rfl, rfl, rfl, rfl⟩)

/-! ## Patch engine: claims C2 and C9 -/

/-- C2: when the input text fails to parse, `apply_diagram_operations`
returns the original text unchanged together with exactly one
parse-error entry, whatever the operation list — no operation is
attempted and nothing is printed. -/
theorem c2_parse_failure_short_circuits (xml_content : String)
    (ops : List DiagramOperation) (h : parseString xml_content = none) :
    apply_diagram_operations xml_content ops =
      ⟨xml_content, [⟨"parse", "", "XML parse error"⟩], []⟩ := by
  unfold apply_diagram_operations
  rw [h]

/-- Witness for C2 at the unparseable input `"<not-xml"`. -/
theorem c2_witness :
    parseString "<not-xml" = none ∧
    apply_diagram_operations "<not-xml" [⟨"delete", "A", none⟩] =
      ⟨"<not-xml", [⟨"parse", "", "XML parse error"⟩], []⟩ :=
  ⟨rfl, c2_parse_failure_short_circuits "<not-xml" [⟨"delete", "A", none⟩] rfl⟩

lemma applyOp_unknown (st : ApplyState) (op : DiagramOperation)
    (h1 : op.operation ≠ "update") (h2 : op.operation ≠ "add")
    (h3 : op.operation ≠ "delete") :
    applyOp st op = st := by
  unfold applyOp
  rw [if_neg h1, if_neg h2, if_neg h3]

/-- C9: an operation whose kind is none of update/add/delete is
silently skipped — the batch behaves exactly as if the operation were
absent (no error entry, no document change, later operations still
processed). -/
theorem c9_unknown_operation_skipped (xml_content : String)
    (ops₁ ops₂ : List DiagramOperation) (op : DiagramOperation)
    (h : op.operation ∉ (["update", "add", "delete"] : List String)) :
    apply_diagram_operations xml_content (ops₁ ++ op :: ops₂) =
      apply_diagram_operations xml_content (ops₁ ++ ops₂) := by
  have h1 : op.operation ≠ "update" := fun hc => h (by simp [hc])
  have h2 : op.operation ≠ "add" := fun hc => h (by simp [hc])
  have h3 : op.operation ≠ "delete" := fun hc => h (by simp [hc])
  unfold apply_diagram_operations
  cases hp : parseString xml_content with
  | none => rfl
  | some doc =>
    cases hr : (elemsNamedPaths "root" [] doc).head? with
    | none => simp only [hr]
    | some rp =>
      have hfold : ∀ st : ApplyState,
          (ops₁ ++ op :: ops₂).foldl applyOp st = (ops₁ ++ ops₂).foldl applyOp st := by
        intro st
        rw [List.foldl_append, List.foldl_append, List.foldl_cons,
            applyOp_unknown _ _ h1 h2 h3]
      simp only [hr, hfold]

/-- Witness for C9: a `"rename"` operation in a batch over a concrete
document is a no-op. -/
theorem c9_witness :
    (⟨"rename", "A", none⟩ : DiagramOperation).operation ∉
        (["update", "add", "delete"] : List String)
    ∧ apply_diagram_operations "<root><mxCell id=\"A\"/></root>"
        ([] ++ (⟨"rename", "A", none⟩ : DiagramOperation) :: []) =
      apply_diagram_operations "<root><mxCell id=\"A\"/></root>" ([] ++ []) :=
  ⟨by decide,
   c9_unknown_operation_skipped "<root><mxCell id=\"A\"/></root>" [] []
     ⟨"rename", "A", none⟩ (by decide)⟩

/-! ## Patch engine: structural lemmas for claims C3, C4, C6 -/

mutual
theorem elemsNamedPaths_map_fst (tag : String) :
    (n : XmlNode) → (p : List Nat) →
      (elemsNamedPaths tag p n).map Prod.fst = elemsNamed tag n
  | .elem t a cs, p => by
    simp only [elemsNamedPaths, elemsNamed, List.map_append]
    congr 1
    · by_cases h : t = tag <;> simp [h]
    · exact elemsNamedPathsList_map_fst tag cs p 0

  | .text _, _ => rfl

theorem elemsNamedPathsList_map_fst (tag : String) :
    (cs : List XmlNode) → (p : List Nat) → (i : Nat) →
      (elemsNamedPathsList tag p i cs).map Prod.fst = elemsNamedList tag cs
  | [], _, _ => rfl
  | c :: cs, p, i => by
    simp only [elemsNamedPathsList, elemsNamedList, List.map_append]
    rw [elemsNamedPaths_map_fst tag c (p ++ [i]),
        elemsNamedPathsList_map_fst tag cs p (i + 1)]
end

lemma elemsNamedPaths_nil_of {tag : String} {n : XmlNode}
    (h : elemsNamed tag n = []) (p : List Nat) : elemsNamedPaths tag p n = [] := by
  have hm := elemsNamedPaths_map_fst tag n p
  rw [h] at hm
  exact List.map_eq_nil_iff.mp hm

lemma elemsNamedPathsList_nil_of {tag : String} {cs : List XmlNode}
    (h : elemsNamedList tag cs = []) (p : List Nat) (i : Nat) :
    elemsNamedPathsList tag p i cs = [] := by
  have hm := elemsNamedPathsList_map_fst tag cs p i
  rw [h] at hm
  exact List.map_eq_nil_iff.mp hm

lemma NonCell.elems_nil {c : XmlNode} (h : NonCell c) :
    elemsNamed "mxCell" c = [] := by
  cases c with
  | text s => rfl
  | elem t a cs =>
    obtain ⟨ht, hcs⟩ := h
    simp only [elemsNamed, hcs, if_neg ht, List.nil_append]

lemma NonCell.cellTag_false {c : XmlNode} (h : NonCell c) : isCellTag c = false := by
  cases c with
  | text s => rfl
  | elem t a cs => simp [isCellTag, h.1]

lemma FlatCell.cellTag_true {c : XmlNode} (h : FlatCell c) : isCellTag c = true := by
  cases c with
  | text s => exact absurd h not_false
  | elem t a cs => simp [isCellTag, h.1]

lemma flatCellsIdx_cons (p : List Nat) (i : Nat) (c : XmlNode) (cs : List XmlNode) :
    flatCellsIdx p i (c :: cs) =
      (if isCellTag c then [(c, p ++ [i])] else []) ++ flatCellsIdx p (i + 1) cs := rfl

lemma FlatCell.paths {c : XmlNode} (h : FlatCell c) (p : List Nat) :
    elemsNamedPaths "mxCell" p c = [(c, p)] := by
  cases c with
  | text s => exact absurd h not_false
  | elem t a cs =>
    obtain ⟨ht, hcs⟩ := h
    subst ht
    show (if ("mxCell" : String) = "mxCell" then [(XmlNode.elem "mxCell" a cs, p)]
        else []) ++ elemsNamedPathsList "mxCell" p 0 cs = _
    rw [if_pos rfl, elemsNamedPathsList_nil_of hcs p 0, List.append_nil]

lemma elemsNamedPathsList_flat (p : List Nat) :
    ∀ (cs : List XmlNode) (i : Nat), (∀ c ∈ cs, FlatCell c ∨ NonCell c) →
      elemsNamedPathsList "mxCell" p i cs = flatCellsIdx p i cs := by
  intro cs
  induction cs with
  | nil => intro i _; rfl
  | cons c cs ih =>
    intro i h
    show elemsNamedPaths "mxCell" (p ++ [i]) c ++
        elemsNamedPathsList "mxCell" p (i + 1) cs = _
    rw [ih (i + 1) (fun d hd => h d (by simp [hd])), flatCellsIdx_cons]
    rcases h c (by simp) with hf | hn
    · rw [hf.paths, if_pos hf.cellTag_true]
    · rw [elemsNamedPaths_nil_of hn.elems_nil,
          if_neg (by rw [hn.cellTag_false]; exact Bool.false_ne_true)]

lemma flatCellsIdx_append (p : List Nat) :
    ∀ (pre post : List XmlNode) (i : Nat),
      flatCellsIdx p i (pre ++ post) =
        flatCellsIdx p i pre ++ flatCellsIdx p (i + pre.length) post := by
  intro pre
  induction pre with
  | nil => intro post i; simp [flatCellsIdx]
  | cons c cs ih =>
    intro post i
    simp only [List.cons_append, flatCellsIdx_cons, List.length_cons]
    rw [ih post (i + 1), List.append_assoc,
        show i + 1 + cs.length = i + (cs.length + 1) by omega]

lemma mem_fst_of_flatCellsIdx (p : List Nat) :
    ∀ (cs : List XmlNode) (i : Nat) (e : XmlNode × List Nat),
      e ∈ flatCellsIdx p i cs → e.1 ∈ cs := by
  intro cs
  induction cs with
  | nil => intro i e he; cases he
  | cons c cs ih =>
    intro i e he
    rw [flatCellsIdx_cons, List.mem_append] at he
    rcases he with he | he
    · by_cases hc : isCellTag c = true
      · rw [if_pos hc] at he
        simp only [List.mem_singleton] at he
        subst he
        simp
      · rw [if_neg hc] at he
        cases he
    · exact List.mem_cons_of_mem c (ih (i + 1) e he)

lemma flatCellsIdx_mem_of (p : List Nat) :
    ∀ (cs : List XmlNode) (i : Nat) (c : XmlNode), c ∈ cs → isCellTag c = true →
      ∃ q, (c, q) ∈ flatCellsIdx p i cs := by
  intro cs
  induction cs with
  | nil => intro i c hc; cases hc
  | cons d cs ih =>
    intro i c hc htag
    rw [List.mem_cons] at hc
    rw [flatCellsIdx_cons]
    rcases hc with rfl | hc
    · exact ⟨p ++ [i], by rw [if_pos htag]; simp⟩
    · obtain ⟨q, hq⟩ := ih (i + 1) c hc htag
      exact ⟨q, by rw [List.mem_append]; exact Or.inr hq⟩

lemma mapLookup_mapInsert_self (m : List (String × List Nat)) (k : String)
    (v : List Nat) : mapLookup (mapInsert m k v) k = some v := by
  induction m with
  | nil => simp [mapInsert, mapLookup, List.find?]
  | cons e t ih =>
    by_cases h : e.1 = k
    · simp [mapInsert, h, mapLookup, List.find?]
    · simp only [mapInsert]
      rw [if_neg h]
      simp only [mapLookup, List.find?] at ih ⊢
      rw [show (decide (e.1 = k)) = false by simpa using h]
      exact ih

lemma mapLookup_mapInsert_other (m : List (String × List Nat)) (k k' : String)
    (v : List Nat) (h : k' ≠ k) :
    mapLookup (mapInsert m k' v) k = mapLookup m k := by
  induction m with
  | nil =>
    simp only [mapInsert, mapLookup, List.find?]
    rw [show (decide (k' = k)) = false by simpa using h]
  | cons e t ih =>
    by_cases he : e.1 = k'
    · simp only [mapInsert]
      rw [if_pos he]
      simp only [mapLookup, List.find?]
      rw [show (decide (k' = k)) = false by simpa using h,
          show (decide (e.1 = k)) = false by simpa [he] using h]
    · simp only [mapInsert]
      rw [if_neg he]
      simp only [mapLookup, List.find?] at ih ⊢
      cases hd : decide (e.1 = k) with
      | true => rfl
      | false => exact ih

lemma mapLookup_foldl_no_k (k : String) :
    ∀ (entries : List (XmlNode × List Nat)) (m : List (String × List Nat)),
      (∀ e ∈ entries, getAttrOf e.1 "id" ≠ k) →
      mapLookup (entries.foldl bcStep m) k = mapLookup m k := by
  intro entries
  induction entries with
  | nil => intro m _; rfl
  | cons e t ih =>
    intro m h
    rw [List.foldl_cons, ih (bcStep m e) (fun d hd => h d (by simp [hd]))]
    unfold bcStep
    by_cases hne : getAttrOf e.1 "id" ≠ ""
    · rw [if_pos hne, mapLookup_mapInsert_other _ _ _ _ (h e (by simp))]
    · rw [if_neg hne]

lemma mapLookup_buildCellMap (e₁ e₂ : List (XmlNode × List Nat)) (c : XmlNode)
    (q : List Nat) (k : String) (hk : getAttrOf c "id" = k) (hne : k ≠ "")
    (h₂ : ∀ e ∈ e₂, getAttrOf e.1 "id" ≠ k) :
    mapLookup (buildCellMap (e₁ ++ (c, q) :: e₂)) k = some q := by
  unfold buildCellMap
  rw [List.foldl_append, List.foldl_cons, mapLookup_foldl_no_k k e₂ _ h₂]
  unfold bcStep
  simp only [hk]
  rw [if_pos hne]
  exact mapLookup_mapInsert_self _ k q

lemma head_elemsNamedPaths_root (ra : List (String × String)) (cells : List XmlNode) :
    (elemsNamedPaths "root" [] (.elem "root" ra cells)).head? =
      some (.elem "root" ra cells, ([] : List Nat)) := by
  simp only [elemsNamedPaths, if_pos rfl]
  rfl

lemma elemsNamedPaths_cells (ra : List (String × String)) (cells : List XmlNode)
    (hflat : ∀ c ∈ cells, FlatCell c ∨ NonCell c) :
    elemsNamedPaths "mxCell" [] (.elem "root" ra cells) = flatCellsIdx [] 0 cells := by
  simp only [elemsNamedPaths]
  rw [if_neg (by decide), elemsNamedPathsList_flat [] cells 0 hflat, List.nil_append]

lemma removeAt_root (ra : List (String × String)) (cells : List XmlNode) (i : Nat) :
    removeAt (.elem "root" ra cells) [i] = .elem "root" ra (cells.eraseIdx i) := rfl

lemma eraseIdx_middle {α : Type} (pre : List α) (a : α) (post : List α) :
    (pre ++ a :: post).eraseIdx pre.length = pre ++ post := by
  rw [List.eraseIdx_append_of_length_le (le_refl _)]
  simp

/-- The id map of a flat root document finds the unique cell with id
`idA` at its child position. -/
lemma mapLookup_flat_doc (ra : List (String × String)) (pre post : List XmlNode)
    (aCell : XmlNode) (idA : String)
    (hflat : ∀ c ∈ pre ++ aCell :: post, FlatCell c ∨ NonCell c)
    (ha : FlatCell aCell) (hid : getAttrOf aCell "id" = idA) (hne : idA ≠ "")
    (huniq : ∀ c ∈ post, getAttrOf c "id" ≠ idA) :
    mapLookup (buildCellMap (elemsNamedPaths "mxCell" []
        (.elem "root" ra (pre ++ aCell :: post)))) idA = some [pre.length] := by
  rw [elemsNamedPaths_cells ra _ hflat, flatCellsIdx_append, flatCellsIdx_cons,
      if_pos ha.cellTag_true]
  have h2 : ∀ e ∈ flatCellsIdx ([] : List Nat) (0 + pre.length + 1) post,
      getAttrOf e.1 "id" ≠ idA := fun e he =>
    huniq e.1 (mem_fst_of_flatCellsIdx [] post (0 + pre.length + 1) e he)
  have hm := mapLookup_buildCellMap (flatCellsIdx [] 0 pre)
    (flatCellsIdx [] (0 + pre.length + 1) post) aCell ([] ++ [0 + pre.length])
    idA hid hne h2
  simpa using hm

/-- A single found `delete` against a flat root document: the target
child is removed, no error entry is recorded, and the pre-removal
scan prints its warnings. -/
lemma apply_delete_flat (s : String) (ra : List (String × String))
    (pre post : List XmlNode) (aCell : XmlNode) (idA : String) (onx : Option String)
    (hparse : parseString s = some (.elem "root" ra (pre ++ aCell :: post)))
    (hflat : ∀ c ∈ pre ++ aCell :: post, FlatCell c ∨ NonCell c)
    (ha : FlatCell aCell) (hid : getAttrOf aCell "id" = idA) (hne : idA ≠ "")
    (huniq : ∀ c ∈ post, getAttrOf c "id" ≠ idA) :
    apply_diagram_operations s [⟨"delete", idA, onx⟩] =
      ⟨docToXml (.elem "root" ra (pre ++ post)), [],
       deleteWarnings idA [] (.elem "root" ra (pre ++ aCell :: post))⟩ := by
  have hmap := mapLookup_flat_doc ra pre post aCell idA hflat ha hid hne huniq
  have happ : applyOp
      ⟨.elem "root" ra (pre ++ aCell :: post), [],
       buildCellMap (elemsNamedPaths "mxCell" []
         (.elem "root" ra (pre ++ aCell :: post))), [], []⟩
      ⟨"delete", idA, onx⟩ =
      ⟨.elem "root" ra (pre ++ post), [],
       mapErase (buildCellMap (elemsNamedPaths "mxCell" []
         (.elem "root" ra (pre ++ aCell :: post)))) idA, [],
       deleteWarnings idA [] (.elem "root" ra (pre ++ aCell :: post))⟩ := by
    unfold applyOp
    rw [if_neg (show ¬ (("delete" : String) = "update") from by decide),
        if_neg (show ¬ (("delete" : String) = "add") from by decide),
        if_pos (show ("delete" : String) = "delete" from rfl),
        hmap]
    simp only [getAt, Option.getD, removeAt_root, eraseIdx_middle, List.nil_append]
  unfold apply_diagram_operations
  rw [hparse]
  simp only [head_elemsNamedPaths_root, List.foldl_cons, List.foldl_nil, happ]

lemma warnMsg_mem_deleteWarnings (idA : String) (ra : List (String × String))
    (cells : List XmlNode) (eCell : XmlNode)
    (hflat : ∀ c ∈ cells, FlatCell c ∨ NonCell c)
    (hmem : eCell ∈ cells) (hE : FlatCell eCell)
    (hsrc : getAttrOf eCell "source" = idA) :
    warnMsg idA (getAttrOf eCell "id") ∈
      deleteWarnings idA [] (.elem "root" ra cells) := by
  unfold deleteWarnings
  rw [elemsNamedPaths_cells ra cells hflat]
  obtain ⟨q, hq⟩ := flatCellsIdx_mem_of [] cells 0 eCell hmem hE.cellTag_true
  exact List.mem_filterMap.mpr ⟨(eCell, q), hq, by rw [if_pos (Or.inl hsrc)]⟩

/-! ## Claim C3: delete with a referencing edge -/

/-- C3 (amended): deleting cell A while an edge E has `source = A`
removes A, keeps E with its now-dangling source, and is not blocked;
the per-edge warning referencing E is printed to stdout, and the
returned error list is empty — the warning is not an error-list
entry. -/
theorem c3_delete_keeps_dangling_edge (s : String) (ra : List (String × String))
    (pre post : List XmlNode) (aCell eCell : XmlNode) (idA : String)
    (hparse : parseString s = some (.elem "root" ra (pre ++ aCell :: post)))
    (hflat : ∀ c ∈ pre ++ aCell :: post, FlatCell c ∨ NonCell c)
    (ha : FlatCell aCell) (hid : getAttrOf aCell "id" = idA) (hne : idA ≠ "")
    (huniq : ∀ c ∈ post, getAttrOf c "id" ≠ idA)
    (hEmem : eCell ∈ pre ++ post) (hE : FlatCell eCell)
    (hsrc : getAttrOf eCell "source" = idA) :
    apply_diagram_operations s [⟨"delete", idA, none⟩] =
      ⟨docToXml (.elem "root" ra (pre ++ post)), [],
       deleteWarnings idA [] (.elem "root" ra (pre ++ aCell :: post))⟩
    ∧ eCell ∈ pre ++ post
    ∧ warnMsg idA (getAttrOf eCell "id") ∈
        (apply_diagram_operations s [⟨"delete", idA, none⟩]).printed := by
  have hmain := apply_delete_flat s ra pre post aCell idA none hparse hflat ha hid hne huniq
  refine ⟨hmain, hEmem, ?_⟩
  rw [hmain]
  refine warnMsg_mem_deleteWarnings idA ra _ eCell hflat ?_ hE hsrc
  rcases List.mem_append.mp hEmem with h | h
  · exact List.mem_append.mpr (Or.inl h)
  · exact List.mem_append.mpr (Or.inr (List.mem_cons_of_mem _ h))

/-- C3 counterexample: at the concrete document where edge E
references the deleted cell A, the returned error list is `[]` — it
contains no warning entry referencing E; the warning text goes to
stdout instead. -/
theorem c3_counterexample :
    apply_diagram_operations
        "<root><mxCell id=\"A\"/><mxCell id=\"E\" source=\"A\" target=\"B\"/></root>"
        [⟨"delete", "A", none⟩] =
      ⟨"<?xml version=\"1.0\" ?><root><mxCell id=\"E\" source=\"A\" target=\"B\"/></root>",
       [], ["Warning: Deleting cell \"A\" which is referenced by edge \"E\""]⟩ := rfl

/-- Witness for C3 on the same concrete document. -/
theorem c3_witness :
    parseString "<root><mxCell id=\"A\"/><mxCell id=\"E\" source=\"A\" target=\"B\"/></root>" =
      some (.elem "root" []
        ([] ++ XmlNode.elem "mxCell" [("id", "A")] [] ::
          [XmlNode.elem "mxCell" [("id", "E"), ("source", "A"), ("target", "B")] []]))
    ∧ (apply_diagram_operations
          "<root><mxCell id=\"A\"/><mxCell id=\"E\" source=\"A\" target=\"B\"/></root>"
          [⟨"delete", "A", none⟩] =
        ⟨docToXml (.elem "root" []
           ([] ++ [XmlNode.elem "mxCell" [("id", "E"), ("source", "A"), ("target", "B")] []])),
         [],
         deleteWarnings "A" [] (.elem "root" []
           ([] ++ XmlNode.elem "mxCell" [("id", "A")] [] ::
             [XmlNode.elem "mxCell" [("id", "E"), ("source", "A"), ("target", "B")] []]))⟩
      ∧ XmlNode.elem "mxCell" [("id", "E"), ("source", "A"), ("target", "B")] [] ∈
          ([] ++ [XmlNode.elem "mxCell" [("id", "E"), ("source", "A"), ("target", "B")] []])
      ∧ warnMsg "A" (getAttrOf
            (XmlNode.elem "mxCell" [("id", "E"), ("source", "A"), ("target", "B")] []) "id") ∈
          (apply_diagram_operations
            "<root><mxCell id=\"A\"/><mxCell id=\"E\" source=\"A\" target=\"B\"/></root>"
            [⟨"delete", "A", none⟩]).printed) :=
  ⟨rfl,
   c3_delete_keeps_dangling_edge _ [] []
     [XmlNode.elem "mxCell" [("id", "E"), ("source", "A"), ("target", "B")] []]
     (XmlNode.elem "mxCell" [("id", "A")] [])
     (XmlNode.elem "mxCell" [("id", "E"), ("source", "A"), ("target", "B")] [])
     "A" rfl
     (by
       intro c hc
       rcases List.mem_cons.mp hc with rfl | hc
       · exact Or.inl ⟨rfl, rfl⟩
       · rcases List.mem_cons.mp hc with rfl | hc
         · exact Or.inl ⟨rfl, rfl⟩
         · cases hc)
     ⟨rfl, rfl⟩ rfl (by decide)
     (by
       intro c hc
       rcases List.mem_cons.mp hc with rfl | hc
       · decide
       · cases hc)
     (by simp) ⟨rfl, rfl⟩ rfl⟩

/-! ## Claim C4: update with mismatching fragment id -/

/-- C4 (amended): an `update(A, fragment)` whose fragment carries a
different id Z records the id-mismatch error and leaves the parsed
document unchanged: the result equals the one an empty batch returns
(the unmodified tree re-serialized) — not, in general, the original
input bytes, since re-serialization normalizes them. -/
theorem c4_update_id_mismatch_unchanged (s : String) (ra : List (String × String))
    (pre post : List XmlNode) (aCell : XmlNode) (idA : String)
    (nx : String) (w frag : XmlNode) (idZ : String)
    (hparse : parseString s = some (.elem "root" ra (pre ++ aCell :: post)))
    (hflat : ∀ c ∈ pre ++ aCell :: post, FlatCell c ∨ NonCell c)
    (ha : FlatCell aCell) (hid : getAttrOf aCell "id" = idA) (hne : idA ≠ "")
    (huniq : ∀ c ∈ post, getAttrOf c "id" ≠ idA)
    (hnx : nx ≠ "")
    (hw : parseString ("<wrapper>" ++ nx ++ "</wrapper>") = some w)
    (hfrag : (elemsNamed "mxCell" w).head? = some frag)
    (hz : getAttrOf frag "id" = idZ) (hzne : idZ ≠ idA) :
    apply_diagram_operations s [⟨"update", idA, some nx⟩] =
      ⟨docToXml (.elem "root" ra (pre ++ aCell :: post)),
       [⟨"update", idA, "ID mismatch: cell_id is \"" ++ idA ++
          "\" but new_xml has id=\"" ++ idZ ++ "\""⟩], []⟩
    ∧ apply_diagram_operations s [] =
      ⟨docToXml (.elem "root" ra (pre ++ aCell :: post)), [], []⟩ := by
  have hmap := mapLookup_flat_doc ra pre post aCell idA hflat ha hid hne huniq
  constructor
  · have happ : applyOp
        ⟨.elem "root" ra (pre ++ aCell :: post), [],
         buildCellMap (elemsNamedPaths "mxCell" []
           (.elem "root" ra (pre ++ aCell :: post))), [], []⟩
        ⟨"update", idA, some nx⟩ =
        ⟨.elem "root" ra (pre ++ aCell :: post), [],
         buildCellMap (elemsNamedPaths "mxCell" []
           (.elem "root" ra (pre ++ aCell :: post))),
         [⟨"update", idA, "ID mismatch: cell_id is \"" ++ idA ++
            "\" but new_xml has id=\"" ++ idZ ++ "\""⟩], []⟩ := by
      unfold applyOp
      rw [if_pos (show ("update" : String) = "update" from rfl), hmap]
      simp only
      rw [if_neg hnx, hw]
      simp only
      rw [hfrag]
      simp only
      rw [if_pos (show ¬ (getAttrOf frag "id" = idA) by rw [hz]; exact hzne), hz]
      rfl
    unfold apply_diagram_operations
    rw [hparse]
    simp only [head_elemsNamedPaths_root, List.foldl_cons, List.foldl_nil, happ]
  · unfold apply_diagram_operations
    rw [hparse]
    simp only [head_elemsNamedPaths_root, List.foldl_nil]

/-- C4 counterexample: the id-mismatch error is produced, but the
result is not byte-identical to the input text (the serializer
prepends the XML declaration). -/
theorem c4_counterexample :
    (apply_diagram_operations "<root><mxCell id=\"A\"/></root>"
        [⟨"update", "A", some "<mxCell id=\"Z\"/>"⟩]).errors =
      [⟨"update", "A", "ID mismatch: cell_id is \"A\" but new_xml has id=\"Z\""⟩]
    ∧ (apply_diagram_operations "<root><mxCell id=\"A\"/></root>"
        [⟨"update", "A", some "<mxCell id=\"Z\"/>"⟩]).result ≠
      "<root><mxCell id=\"A\"/></root>" := by
  constructor
  · rfl
  · decide

/-- Witness for C4 at a concrete document and fragment. -/
theorem c4_witness :
    parseString "<root><mxCell id=\"A\"/></root>" =
      some (.elem "root" [] ([] ++ XmlNode.elem "mxCell" [("id", "A")] [] :: []))
    ∧ parseString ("<wrapper>" ++ "<mxCell id=\"Z\"/>" ++ "</wrapper>") =
      some (.elem "wrapper" [] [XmlNode.elem "mxCell" [("id", "Z")] []])
    ∧ (apply_diagram_operations "<root><mxCell id=\"A\"/></root>"
          [⟨"update", "A", some "<mxCell id=\"Z\"/>"⟩] =
        ⟨docToXml (.elem "root" [] ([] ++ XmlNode.elem "mxCell" [("id", "A")] [] :: [])),
         [⟨"update", "A", "ID mismatch: cell_id is \"" ++ "A" ++
            "\" but new_xml has id=\"" ++ "Z" ++ "\""⟩], []⟩
      ∧ apply_diagram_operations "<root><mxCell id=\"A\"/></root>" [] =
        ⟨docToXml (.elem "root" [] ([] ++ XmlNode.elem "mxCell" [("id", "A")] [] :: [])),
         [], []⟩) :=
  ⟨rfl, rfl,
   c4_update_id_mismatch_unchanged _ [] [] [] (XmlNode.elem "mxCell" [("id", "A")] [])
     "A" "<mxCell id=\"Z\"/>"
     (XmlNode.elem "wrapper" [] [XmlNode.elem "mxCell" [("id", "Z")] []])
     (XmlNode.elem "mxCell" [("id", "Z")] []) "Z"
     rfl
     (by
       intro c hc
       rcases List.mem_cons.mp hc with rfl | hc
       · exact Or.inl ⟨rfl, rfl⟩
       · cases hc)
     ⟨rfl, rfl⟩ rfl (by decide)
     (by intro c hc; cases hc)
     (by decide) rfl rfl rfl (by decide)⟩

/-! ## Claim C6: the background cells "0" and "1" -/

/-- C6 (amended): the background ids are hidden from cell listings —
`extract_cells_info` never reports id "0" or "1" — but the patch
engine does not protect them: its id map includes them, and a delete
addressed to "1" removes the background cell like any other, with no
error recorded. -/
theorem c6_background_cells_not_protected :
    (∀ (doc : XmlNode) (info : CellInfo), info ∈ extract_cells_info_doc doc →
        info.id ≠ "0" ∧ info.id ≠ "1")
    ∧ ∀ (s : String) (ra : List (String × String)) (pre post : List XmlNode)
        (bCell : XmlNode),
        parseString s = some (.elem "root" ra (pre ++ bCell :: post)) →
        (∀ c ∈ pre ++ bCell :: post, FlatCell c ∨ NonCell c) →
        FlatCell bCell → getAttrOf bCell "id" = "1" →
        (∀ c ∈ post, getAttrOf c "id" ≠ "1") →
        apply_diagram_operations s [⟨"delete", "1", none⟩] =
          ⟨docToXml (.elem "root" ra (pre ++ post)), [],
           deleteWarnings "1" [] (.elem "root" ra (pre ++ bCell :: post))⟩ := by
  constructor
  · intro doc info hmem
    obtain ⟨c, hc, hsome⟩ := List.mem_filterMap.mp hmem
    unfold cellInfoOf at hsome
    by_cases hcond : getAttrOf c "id" ≠ "" ∧ getAttrOf c "id" ≠ "0" ∧
        getAttrOf c "id" ≠ "1"
    · rw [if_pos hcond] at hsome
      cases hsome
      exact ⟨hcond.2.1, hcond.2.2⟩
    · rw [if_neg hcond] at hsome
      cases hsome
  · intro s ra pre post bCell hparse hflat hb hid huniq
    exact apply_delete_flat s ra pre post bCell "1" none hparse hflat hb hid
      (by decide) huniq

/-- C6 counterexample: a document containing both background cells,
to which `delete("1")` is applied: the result no longer contains the
background cell "1" and no error is reported. -/
theorem c6_counterexample :
    apply_diagram_operations "<root><mxCell id=\"0\"/><mxCell id=\"1\"/></root>"
        [⟨"delete", "1", none⟩] =
      ⟨"<?xml version=\"1.0\" ?><root><mxCell id=\"0\"/></root>", [], []⟩
    ∧ parseString "<root><mxCell id=\"0\"/><mxCell id=\"1\"/></root>" =
      some (.elem "root" [] [XmlNode.elem "mxCell" [("id", "0")] [],
                             XmlNode.elem "mxCell" [("id", "1")] []]) :=
  ⟨rfl, rfl⟩

/-- Witness for C6: the listing exclusion at a one-cell document, and
the deletion of background cell "1" at a concrete document. -/
theorem c6_witness :
    ((⟨"A", "", "", "", ""⟩ : CellInfo) ∈
        extract_cells_info_doc (.elem "root" [] [XmlNode.elem "mxCell" [("id", "A")] []])
      ∧ (⟨"A", "", "", "", ""⟩ : CellInfo).id ≠ "0"
      ∧ (⟨"A", "", "", "", ""⟩ : CellInfo).id ≠ "1")
    ∧ (parseString "<root><mxCell id=\"0\"/><mxCell id=\"1\"/></root>" =
        some (.elem "root" []
          ([XmlNode.elem "mxCell" [("id", "0")] []] ++
            XmlNode.elem "mxCell" [("id", "1")] [] :: []))
      ∧ apply_diagram_operations "<root><mxCell id=\"0\"/><mxCell id=\"1\"/></root>"
          [⟨"delete", "1", none⟩] =
        ⟨docToXml (.elem "root" [] ([XmlNode.elem "mxCell" [("id", "0")] []] ++ [])),
         [],
         deleteWarnings "1" [] (.elem "root" []
           ([XmlNode.elem "mxCell" [("id", "0")] []] ++
             XmlNode.elem "mxCell" [("id", "1")] [] :: []))⟩) :=
  ⟨⟨by decide,
    (c6_background_cells_not_protected.1
      (.elem "root" [] [XmlNode.elem "mxCell" [("id", "A")] []])
      ⟨"A", "", "", "", ""⟩ (by decide)).1,
    (c6_background_cells_not_protected.1
      (.elem "root" [] [XmlNode.elem "mxCell" [("id", "A")] []])
      ⟨"A", "", "", "", ""⟩ (by decide)).2⟩,
   rfl,
   c6_background_cells_not_protected.2 _ []
     [XmlNode.elem "mxCell" [("id", "0")] []] []
     (XmlNode.elem "mxCell" [("id", "1")] [])
     rfl
     (by
       intro c hc
       rcases List.mem_cons.mp hc with rfl | hc
       · exact Or.inl ⟨rfl, rfl⟩
       · rcases List.mem_cons.mp hc with rfl | hc
         · exact Or.inl ⟨rfl, rfl⟩
         · cases hc)
     ⟨rfl, rfl⟩ rfl
     (by intro c hc; cases hc)⟩

end Drawio
